import Mathlib

/-!
Verification of the Date Copy Tool (`date_copy_osx.py`).

The program's only behavioral core is `Dates.copy_date` (lines 95-128):
it clears the clipboard, selects a shell command according to the pressed
button (`option` in {1,2,3} mapping to day offsets -1, 0, +1), runs the
external BSD `date` command with format `"%d %b %Y"`, strips the trailing
newline from the decoded output, applies the optional trailing/leading
space toggles from the menubar, and appends the result to the clipboard.
An option outside {1,2,3} writes a message to stderr and exits the
process with status 1.

We embed the calendar semantics of the external `date -v-1d` / `date` /
`date -v+1d` invocations (one-day calendar adjustment, strftime rendering
with zero-padded `%d`, abbreviated `%b`, and decimal `%Y`) together with
a faithful translation of `copy_date` over an explicit application state
(clipboard string, the two `BooleanVar` spacing flags, the focused
button, and the `self.output` attribute).
-/

/-- A proleptic Gregorian calendar date, the value manipulated by the
external `date` command that `copy_date` shells out to. -/
structure Date where
  year : Nat
  month : Nat
  day : Nat
deriving DecidableEq, Repr

/-- Gregorian leap-year rule, as implemented by the host `date` command. -/
def isLeap (y : Nat) : Bool :=
  y % 4 == 0 && (y % 100 != 0 || y % 400 == 0)

/-- Number of days in a month of a given year. -/
def daysInMonth (y m : Nat) : Nat :=
  if m = 2 then (if isLeap y then 29 else 28)
  else if m = 4 ∨ m = 6 ∨ m = 9 ∨ m = 11 then 30
  else 31

/-- A calendar date is valid when its month and day are in range
(years are counted from 1). -/
def isValidDate (d : Date) : Prop :=
  1 ≤ d.year ∧ 1 ≤ d.month ∧ d.month ≤ 12 ∧ 1 ≤ d.day ∧
    d.day ≤ daysInMonth d.year d.month

instance (d : Date) : Decidable (isValidDate d) := by
  unfold isValidDate
  exact inferInstance

/-- Calendar successor of a date: model of the day adjustment performed
by `date -v+1d` (rolls over month and year boundaries). -/
def nextDay (d : Date) : Date :=
  if d.day < daysInMonth d.year d.month then ⟨d.year, d.month, d.day + 1⟩
  else if d.month < 12 then ⟨d.year, d.month + 1, 1⟩
  else ⟨d.year + 1, 1, 1⟩

/-- Calendar predecessor of a date: model of the day adjustment performed
by `date -v-1d`. -/
def prevDay (d : Date) : Date :=
  if 1 < d.day then ⟨d.year, d.month, d.day - 1⟩
  else if 1 < d.month then ⟨d.year, d.month - 1, daysInMonth d.year (d.month - 1)⟩
  else ⟨d.year - 1, 12, 31⟩

/-- Cumulative day count of the months preceding month `m` in a
non-leap year. -/
def daysBeforeMonth (m : Nat) : Nat :=
  match m with
  | 1 => 0
  | 2 => 31
  | 3 => 59
  | 4 => 90
  | 5 => 120
  | 6 => 151
  | 7 => 181
  | 8 => 212
  | 9 => 243
  | 10 => 273
  | 11 => 304
  | _ => 334

/-- Day number of a date (Rata Die: 0001-01-01 has number 1).  This is
the specification-side notion of "standard calendar arithmetic in whole
days" against which the rollover behavior of `nextDay`/`prevDay` is
checked. -/
def toRataDie (d : Date) : Nat :=
  365 * (d.year - 1) + (d.year - 1) / 4 - (d.year - 1) / 100 + (d.year - 1) / 400
    + daysBeforeMonth d.month
    + (if 3 ≤ d.month then (if isLeap d.year then 1 else 0) else 0)
    + d.day

/-- The character for a decimal digit `n < 10`. -/
def digitChar (n : Nat) : Char :=
  Char.ofNat (48 + n)

/-- Decimal digit list of `n` (most significant first), computed with
explicit fuel; empty for `n = 0`. -/
def natToDecCore (fuel n : Nat) : List Char :=
  match fuel with
  | 0 => []
  | fuel + 1 =>
    if n = 0 then [] else natToDecCore fuel (n / 10) ++ [digitChar (n % 10)]

/-- Decimal rendering of a natural number, as produced by `%Y` (and by
`%d` before padding) in the strftime format used by the program. -/
def natToDec (n : Nat) : String :=
  if n = 0 then "0" else ⟨natToDecCore (n + 1) n⟩

/-- Zero-padded two-digit rendering of the day of month: strftime `%d`. -/
def pad2 (n : Nat) : String :=
  if n < 10 then "0" ++ natToDec n else natToDec n

/-- Abbreviated English month name: strftime `%b` in the POSIX locale. -/
def monthAbbrev (m : Nat) : String :=
  match m with
  | 1 => "Jan"
  | 2 => "Feb"
  | 3 => "Mar"
  | 4 => "Apr"
  | 5 => "May"
  | 6 => "Jun"
  | 7 => "Jul"
  | 8 => "Aug"
  | 9 => "Sep"
  | 10 => "Oct"
  | 11 => "Nov"
  | 12 => "Dec"
  | _ => ""

/-- Rendering of a date with the program's format string `"%d %b %Y"`
(line 106/109/112 of `date_copy_osx.py`). -/
def formatDate (d : Date) : String :=
  pad2 d.day ++ " " ++ monthAbbrev d.month ++ " " ++ natToDec d.year

/-- The process-wide state `copy_date` interacts with: the system
clipboard, the two `BooleanVar` spacing flags of the menubar, the
currently focused button (by its option number) and the `self.output`
attribute of the `Dates` frame. -/
structure AppState where
  clipboard : String
  leading_check : Bool
  trailing_check : Bool
  focused : Option Nat
  output : Option String
deriving DecidableEq, Repr

/-- State at startup: `tk.BooleanVar()` defaults to `False` for both
spacing flags, no button focused, no `output` attribute yet. -/
def initState : AppState :=
  { clipboard := "", leading_check := false, trailing_check := false,
    focused := none, output := none }

/-- Outcome of a `copy_date` call: either a normal return with the new
state, or a process exit (`sys.exit`) carrying the state at exit, the
message written to stderr, and the exit status. -/
inductive CopyResult where
  | ok : AppState → CopyResult
  | exited : AppState → String → Nat → CopyResult
deriving DecidableEq, Repr

/-- The state after a `copy_date` call, whether it returned or exited. -/
def resultState : CopyResult → AppState
  | .ok s => s
  | .exited s _ _ => s

/-- The clipboard content after a `copy_date` call. -/
def resultClipboard (r : CopyResult) : String :=
  (resultState r).clipboard

/-- Models Python `s[:-1]` on a string (drop the final character), used
at line 120 to discard the newline ending the `date` command output. -/
def pyDropLast (s : String) : String :=
  ⟨s.data.dropLast⟩

/-- Lines 122-126 of `copy_date`: append one space if the trailing
toggle is set, then prepend one space if the leading toggle is set. -/
def applySpacing (leading trailing : Bool) (out : String) : String :=
  let out := if trailing then out ++ " " else out
  if leading then " " ++ out else out

/-- Lines 117-128 of `copy_date`, common to the three valid options:
decode the raw command output, strip its final newline, store it in
`self.output`, apply the spacing toggles, and append to the clipboard. -/
def finishCopy (s : AppState) (raw : String) : CopyResult :=
  let out := applySpacing s.leading_check s.trailing_check (pyDropLast raw)
  .ok { s with output := some out, clipboard := s.clipboard ++ out }

/-- Translation of `Dates.copy_date` (lines 95-128 of
`date_copy_osx.py`).  The clipboard is cleared first (line 102); then the
option selects the focused button and the `date` command to run
(`date -v-1d +"%d %b %Y"` / `date +"%d %b %Y"` / `date -v+1d +"%d %b %Y"`,
modelled as the formatted adjusted date followed by a newline); any other
option writes to stderr and exits with status 1 (lines 113-115). -/
def copy_date (today : Date) (s : AppState) (option : Nat) : CopyResult :=
  let s := { s with clipboard := "" }
  if option = 1 then
    finishCopy { s with focused := some 1 } (formatDate (prevDay today) ++ "\n")
  else if option = 2 then
    finishCopy { s with focused := some 2 } (formatDate today ++ "\n")
  else if option = 3 then
    finishCopy { s with focused := some 3 } (formatDate (nextDay today) ++ "\n")
  else
    .exited s "copy_date was called with an invalid arg" 1

/-- The date `copy_date` formats for a given valid option: the buttons
1, 2, 3 select yesterday, today and tomorrow. -/
def targetDate (option : Nat) (today : Date) : Date :=
  if option = 1 then prevDay today
  else if option = 3 then nextDay today
  else today

/-- The day offset selected by each button (1 ↦ -1, 2 ↦ 0, 3 ↦ +1). -/
def dayOffset (option : Nat) : Int :=
  if option = 1 then -1
  else if option = 3 then 1
  else 0

/-- User-interface events that reach the behavioral core: the two
spacing checkbuttons toggle their `BooleanVar`, and a button press or
keybind invokes `copy_date`. -/
inductive Event where
  | toggleLeading : Event
  | toggleTrailing : Event
  | copy : Nat → Event

/-- One user action applied to the application state (the current date
is supplied by the host). -/
def step (today : Date) (s : AppState) : Event → AppState
  | .toggleLeading => { s with leading_check := !s.leading_check }
  | .toggleTrailing => { s with trailing_check := !s.trailing_check }
  | .copy option => resultState (copy_date today s option)

/-- Arithmetic characterization of the leap-year test. -/
theorem isLeap_iff (y : Nat) :
    isLeap y = true ↔ (y % 4 = 0 ∧ (y % 100 ≠ 0 ∨ y % 400 = 0)) := by
  simp [isLeap, Bool.and_eq_true, Bool.or_eq_true, beq_iff_eq, bne_iff_ne]

/-- Every month has between 28 and 31 days. -/
theorem daysInMonth_bounds (y m : Nat) :
    28 ≤ daysInMonth y m ∧ daysInMonth y m ≤ 31 := by
  unfold daysInMonth
  split_ifs <;> omega

/-- Crossing a month boundary inside a year advances the day number by
one: the first day of month `m + 1` follows the last day of month `m`. -/
theorem toRataDie_mk_next_month (y m : Nat) (hm1 : 1 ≤ m) (hm : m < 12) :
    toRataDie ⟨y, m + 1, 1⟩ = toRataDie ⟨y, m, daysInMonth y m⟩ + 1 := by
  have harith := isLeap_iff y
  rcases Bool.eq_false_or_eq_true (isLeap y) with hl | hl <;>
    rw [hl] at harith <;>
    simp only [true_iff, Bool.false_eq_true, false_iff] at harith <;>
    interval_cases m <;>
    simp [toRataDie, daysInMonth, daysBeforeMonth, hl]

/-- Crossing a year boundary advances the day number by one: January 1
of year `y + 1` follows December 31 of year `y`. -/
theorem toRataDie_mk_next_year (y : Nat) (hy : 1 ≤ y) :
    toRataDie ⟨y + 1, 1, 1⟩ = toRataDie ⟨y, 12, 31⟩ + 1 := by
  have harith := isLeap_iff y
  rcases Bool.eq_false_or_eq_true (isLeap y) with hl | hl
  · rw [hl] at harith
    simp only [true_iff] at harith
    obtain ⟨c4, hrest⟩ := harith
    simp only [toRataDie, daysBeforeMonth, hl, if_true,
      show ¬ (3 ≤ 1) by omega, show (3 : Nat) ≤ 12 by omega, if_false,
      Nat.add_sub_cancel]
    have e4 : y / 4 = (y - 1) / 4 + 1 := by omega
    rcases hrest with c100 | c400
    · have c400 : y % 400 ≠ 0 := by omega
      have e100 : y / 100 = (y - 1) / 100 := by omega
      have e400 : y / 400 = (y - 1) / 400 := by omega
      omega
    · have c100 : y % 100 = 0 := by omega
      have e100 : y / 100 = (y - 1) / 100 + 1 := by omega
      have e400 : y / 400 = (y - 1) / 400 + 1 := by omega
      omega
  · rw [hl] at harith
    simp only [Bool.false_eq_true, false_iff, not_and, not_or, not_not] at harith
    simp only [toRataDie, daysBeforeMonth, hl, Bool.false_eq_true, if_false,
      show ¬ (3 ≤ 1) by omega, show (3 : Nat) ≤ 12 by omega, if_true,
      Nat.add_sub_cancel]
    by_cases c4 : y % 4 = 0
    · obtain ⟨c100, c400⟩ := harith c4
      have e4 : y / 4 = (y - 1) / 4 + 1 := by omega
      have e100 : y / 100 = (y - 1) / 100 + 1 := by omega
      have e400 : y / 400 = (y - 1) / 400 := by omega
      omega
    · have c100 : y % 100 ≠ 0 := by omega
      have c400 : y % 400 ≠ 0 := by omega
      have e4 : y / 4 = (y - 1) / 4 := by omega
      have e100 : y / 100 = (y - 1) / 100 := by omega
      have e400 : y / 400 = (y - 1) / 400 := by omega
      omega

/-- The calendar successor advances the day number by exactly one:
`nextDay` rolls over month and year boundaries correctly. -/
theorem toRataDie_nextDay (d : Date) (h : isValidDate d) :
    toRataDie (nextDay d) = toRataDie d + 1 := by
  obtain ⟨y, m, day⟩ := d
  obtain ⟨hy, hm1, hm2, hd1, hd2⟩ := h
  have hy' : 1 ≤ y := hy
  have hm1' : 1 ≤ m := hm1
  have hm2' : m ≤ 12 := hm2
  have hd2' : day ≤ daysInMonth y m := hd2
  by_cases h1 : day < daysInMonth y m
  · simp [nextDay, h1, toRataDie]
    omega
  · by_cases h2 : m < 12
    · have hd : day = daysInMonth y m := by omega
      simp [nextDay, h1, h2]
      rw [hd]
      exact toRataDie_mk_next_month y m hm1' h2
    · have hm12 : m = 12 := by omega
      subst hm12
      have h31 : daysInMonth y 12 = 31 := by simp [daysInMonth]
      have hd : day = 31 := by omega
      subst hd
      simp [nextDay, h1, h2]
      exact toRataDie_mk_next_year y hy'

/-- The calendar predecessor decreases the day number by exactly one:
`prevDay` rolls back over month and year boundaries correctly (on any
valid date other than 0001-01-01). -/
theorem toRataDie_prevDay (d : Date) (h : isValidDate d) (hne : d ≠ ⟨1, 1, 1⟩) :
    toRataDie (prevDay d) + 1 = toRataDie d := by
  obtain ⟨y, m, day⟩ := d
  obtain ⟨hy, hm1, hm2, hd1, hd2⟩ := h
  have hy' : 1 ≤ y := hy
  have hm1' : 1 ≤ m := hm1
  have hm2' : m ≤ 12 := hm2
  have hd1' : 1 ≤ day := hd1
  by_cases h1 : 1 < day
  · simp [prevDay, h1, toRataDie]
    omega
  · have hd : day = 1 := by omega
    subst hd
    by_cases h2 : 1 < m
    · simp [prevDay, h2]
      have key := toRataDie_mk_next_month y (m - 1) (by omega) (by omega)
      rw [show m - 1 + 1 = m by omega] at key
      omega
    · have hm1eq : m = 1 := by omega
      subst hm1eq
      have hy2 : 2 ≤ y := by
        by_contra hcon
        have hyeq : y = 1 := by omega
        subst hyeq
        exact hne rfl
      simp [prevDay]
      have key := toRataDie_mk_next_year (y - 1) (by omega)
      rw [show y - 1 + 1 = y by omega] at key
      omega

/-- The calendar successor of a valid date is valid. -/
theorem isValidDate_nextDay (d : Date) (h : isValidDate d) :
    isValidDate (nextDay d) := by
  obtain ⟨y, m, day⟩ := d
  obtain ⟨hy, hm1, hm2, hd1, hd2⟩ := h
  have hy' : 1 ≤ y := hy
  have hm1' : 1 ≤ m := hm1
  have hm2' : m ≤ 12 := hm2
  have hd2' : day ≤ daysInMonth y m := hd2
  by_cases h1 : day < daysInMonth y m
  · simp [nextDay, h1, isValidDate]
    omega
  · by_cases h2 : m < 12
    · have hb := daysInMonth_bounds y (m + 1)
      simp [nextDay, h1, h2, isValidDate]
      omega
    · have hb : daysInMonth (y + 1) 1 = 31 := by simp [daysInMonth]
      simp [nextDay, h1, h2, isValidDate]
      omega

/-- The calendar predecessor of a valid date other than 0001-01-01 is
valid. -/
theorem isValidDate_prevDay (d : Date) (h : isValidDate d) (hne : d ≠ ⟨1, 1, 1⟩) :
    isValidDate (prevDay d) := by
  obtain ⟨y, m, day⟩ := d
  obtain ⟨hy, hm1, hm2, hd1, hd2⟩ := h
  have hy' : 1 ≤ y := hy
  have hm1' : 1 ≤ m := hm1
  have hm2' : m ≤ 12 := hm2
  have hd1' : 1 ≤ day := hd1
  have hd2' : day ≤ daysInMonth y m := hd2
  by_cases h1 : 1 < day
  · simp [prevDay, h1, isValidDate]
    omega
  · have hd : day = 1 := by omega
    subst hd
    by_cases h2 : 1 < m
    · have hb := daysInMonth_bounds y (m - 1)
      simp [prevDay, h2, isValidDate]
      omega
    · have hm1eq : m = 1 := by omega
      subst hm1eq
      have hy2 : 2 ≤ y := by
        by_contra hcon
        have hyeq : y = 1 := by omega
        subst hyeq
        exact hne rfl
      have hb : daysInMonth (y - 1) 12 = 31 := by simp [daysInMonth]
      simp [prevDay, isValidDate]
      omega

/-- Concatenating strings concatenates their character lists. -/
theorem strData_append (a b : String) : (a ++ b).data = a.data ++ b.data := by
  cases a
  cases b
  rfl

/-- The length of a string is the length of its character list. -/
theorem strLength_data (s : String) : s.length = s.data.length := rfl

/-- The rendering of a decimal digit is a digit character. -/
theorem digitChar_isDigit (k : Nat) (h : k < 10) : (digitChar k).isDigit = true := by
  interval_cases k <;> decide

/-- Every character produced by the decimal digit expansion is a digit. -/
theorem natToDecCore_digits (fuel n : Nat) (c : Char)
    (h : c ∈ natToDecCore fuel n) : c.isDigit = true := by
  induction fuel generalizing n with
  | zero => simp [natToDecCore] at h
  | succ fuel ih =>
    unfold natToDecCore at h
    by_cases hn : n = 0
    · simp [hn] at h
    · simp [hn, List.mem_append] at h
      rcases h with h | h
      · exact ih _ h
      · subst h
        exact digitChar_isDigit _ (Nat.mod_lt _ (by omega))

/-- Every character of a decimal rendering is a digit. -/
theorem natToDec_digits (n : Nat) (c : Char) (h : c ∈ (natToDec n).data) :
    c.isDigit = true := by
  unfold natToDec at h
  by_cases hn : n = 0
  · simp [hn] at h
    subst h
    decide
  · simp [hn] at h
    exact natToDecCore_digits _ _ _ h

/-- A decimal rendering never contains a newline. -/
theorem natToDec_no_newline (n : Nat) : '\n' ∉ (natToDec n).data := by
  intro h
  exact absurd (natToDec_digits n _ h) (by decide)

/-- A month abbreviation never contains a newline. -/
theorem monthAbbrev_no_newline (m : Nat) : '\n' ∉ (monthAbbrev m).data := by
  unfold monthAbbrev
  split <;> decide

/-- A formatted date never contains a newline. -/
theorem formatDate_no_newline (d : Date) : '\n' ∉ (formatDate d).data := by
  intro h
  unfold formatDate at h
  simp only [strData_append, List.mem_append] at h
  rcases h with (((h | h) | h) | h) | h
  · unfold pad2 at h
    by_cases hday : d.day < 10
    · rw [if_pos hday, strData_append] at h
      rcases List.mem_append.mp h with h | h
      · exact absurd h (by decide)
      · exact natToDec_no_newline _ h
    · rw [if_neg hday] at h
      exact natToDec_no_newline _ h
  · exact absurd h (by decide)
  · exact monthAbbrev_no_newline _ h
  · exact absurd h (by decide)
  · exact natToDec_no_newline _ h

/-- Stripping the final character of a string that ends in a newline
recovers exactly the string without the newline. -/
theorem pyDropLast_concat_newline (x : String) : pyDropLast (x ++ "\n") = x := by
  obtain ⟨l⟩ := x
  simp [pyDropLast, strData_append, List.dropLast_concat]

/-- Character-list view of the spacing post-processing. -/
theorem applySpacing_data (l t : Bool) (s : String) :
    (applySpacing l t s).data =
      (cond l [' '] []) ++ s.data ++ (cond t [' '] []) := by
  cases l <;> cases t <;> simp [applySpacing, strData_append]

/-- The spacing post-processing introduces no newline. -/
theorem applySpacing_no_newline (l t : Bool) (s : String)
    (h : '\n' ∉ s.data) : '\n' ∉ (applySpacing l t s).data := by
  intro hmem
  rw [applySpacing_data] at hmem
  simp only [List.mem_append] at hmem
  rcases hmem with (hm | hm) | hm
  · cases l <;> simp at hm
  · exact h hm
  · cases t <;> simp at hm

/-- A `copy_date` call never changes the two spacing flags. -/
theorem copy_date_preserves_flags (today : Date) (s : AppState) (o : Nat) :
    (resultState (copy_date today s o)).leading_check = s.leading_check ∧
    (resultState (copy_date today s o)).trailing_check = s.trailing_check := by
  unfold copy_date
  split_ifs <;> simp [finishCopy, resultState]

/-- The clipboard produced by `copy_date` depends on the prior state only
through the two spacing flags. -/
theorem copy_date_clipboard_congr (today : Date) (s t : AppState) (o : Nat)
    (hl : t.leading_check = s.leading_check)
    (ht : t.trailing_check = s.trailing_check) :
    resultClipboard (copy_date today t o) =
      resultClipboard (copy_date today s o) := by
  unfold copy_date
  split_ifs <;> simp [finishCopy, resultClipboard, resultState, hl, ht]

/-- Appending to an empty string gives the appended string. -/
theorem str_nil_append (s : String) : "" ++ s = s := by
  obtain ⟨l⟩ := s
  rfl

/-- Claim C1, counterexample: invoking `copy_date` with the invalid
option 4 DOES mutate the clipboard — line 102 clears it before the
option is validated, so prior content "hello" is lost. -/
theorem copy_date_invalid_mutates_clipboard_cex :
    (resultState (copy_date ⟨2016, 12, 23⟩
      { clipboard := "hello", leading_check := false, trailing_check := false,
        focused := none, output := none } 4)).clipboard ≠ "hello" := by
  decide

/-- Claim C1 (amended): for every option outside {1,2,3}, the clipboard
is cleared but nothing is written to it (no append is reached, the rest
of the state is untouched), and the invalid-argument condition is
reported on stderr with a process exit of status 1. -/
theorem copy_date_invalid_clears_and_reports (today : Date) (s : AppState)
    (o : Nat) (h1 : o ≠ 1) (h2 : o ≠ 2) (h3 : o ≠ 3) :
    copy_date today s o =
      .exited { s with clipboard := "" }
        "copy_date was called with an invalid arg" 1 := by
  simp [copy_date, h1, h2, h3]

/-- Witness for `copy_date_invalid_clears_and_reports` at option 4. -/
theorem copy_date_invalid_clears_and_reports_witness :
    (4 : Nat) ≠ 1 ∧ (4 : Nat) ≠ 2 ∧ (4 : Nat) ≠ 3 ∧
    copy_date ⟨2016, 12, 23⟩ initState 4 =
      .exited { initState with clipboard := "" }
        "copy_date was called with an invalid arg" 1 :=
  ⟨by decide, by decide, by decide,
    copy_date_invalid_clears_and_reports ⟨2016, 12, 23⟩ initState 4
      (by decide) (by decide) (by decide)⟩

/-- Claim C2, counterexample: from reference date 2016-12-31 with offset
+1 (option 3) the clipboard receives "01 Jan 2017" — the day IS
zero-padded by the `%d` format — not "1 Jan 2017" as claimed. -/
theorem copy_date_day_unpadded_cex :
    resultClipboard (copy_date ⟨2016, 12, 31⟩ initState 3) = "01 Jan 2017" ∧
    "01 Jan 2017" ≠ "1 Jan 2017" := by
  decide

/-- Claim C2 (amended): the formatted date renders the day number
zero-padded to two digits (strftime `%d`); from reference date
2016-12-31 with offset +1 the result is "01 Jan 2017", and from
2017-01-01 with offset -1 the result is "31 Dec 2016". -/
theorem copy_date_day_zero_padded (d : Date) (hday : d.day ≤ 31) :
    formatDate d =
      pad2 d.day ++ " " ++ monthAbbrev d.month ++ " " ++ natToDec d.year ∧
    (pad2 d.day).length = 2 ∧
    (d.day < 10 → (pad2 d.day).data.head? = some '0') ∧
    resultClipboard (copy_date ⟨2016, 12, 31⟩ initState 3) = "01 Jan 2017" ∧
    resultClipboard (copy_date ⟨2017, 1, 1⟩ initState 1) = "31 Dec 2016" := by
  refine ⟨rfl, ?_, ?_, by decide, by decide⟩
  · obtain ⟨y, m, day⟩ := d
    have h : day ≤ 31 := hday
    show (pad2 day).length = 2
    interval_cases day <;> decide
  · obtain ⟨y, m, day⟩ := d
    have h : day ≤ 31 := hday
    show day < 10 → (pad2 day).data.head? = some '0'
    interval_cases day <;> decide

/-- Witness for `copy_date_day_zero_padded` at the date 2017-01-05. -/
theorem copy_date_day_zero_padded_witness :
    (Date.mk 2017 1 5).day ≤ 31 ∧
    (formatDate ⟨2017, 1, 5⟩ =
      pad2 (Date.mk 2017 1 5).day ++ " " ++ monthAbbrev (Date.mk 2017 1 5).month
        ++ " " ++ natToDec (Date.mk 2017 1 5).year ∧
    (pad2 (Date.mk 2017 1 5).day).length = 2 ∧
    ((Date.mk 2017 1 5).day < 10 →
      (pad2 (Date.mk 2017 1 5).day).data.head? = some '0') ∧
    resultClipboard (copy_date ⟨2016, 12, 31⟩ initState 3) = "01 Jan 2017" ∧
    resultClipboard (copy_date ⟨2017, 1, 1⟩ initState 1) = "31 Dec 2016") :=
  ⟨by decide, copy_date_day_zero_padded ⟨2017, 1, 5⟩ (by decide)⟩

/-- Claim C7: invoking `copy_date` with an invalid option reports the
error on the error channel (stderr) and terminates the process with
exit status 1. -/
theorem copy_date_invalid_stderr_and_exit (today : Date) (s : AppState)
    (o : Nat) (h : ¬ (o = 1 ∨ o = 2 ∨ o = 3)) :
    ∃ s', copy_date today s o =
      .exited s' "copy_date was called with an invalid arg" 1 := by
  push_neg at h
  refine ⟨{ s with clipboard := "" }, ?_⟩
  simp [copy_date, h.1, h.2.1, h.2.2]

/-- Witness for `copy_date_invalid_stderr_and_exit` at option 4. -/
theorem copy_date_invalid_stderr_and_exit_witness :
    ¬ ((4 : Nat) = 1 ∨ (4 : Nat) = 2 ∨ (4 : Nat) = 3) ∧
    ∃ s', copy_date ⟨2016, 12, 23⟩ initState 4 =
      .exited s' "copy_date was called with an invalid arg" 1 :=
  ⟨by decide,
    copy_date_invalid_stderr_and_exit ⟨2016, 12, 23⟩ initState 4 (by decide)⟩

/-- Claim C9, counterexample: a successful `copy_date` call mutates more
than the clipboard — it moves the keyboard focus to the pressed button
(line 105/108/111). -/
theorem copy_date_touches_focus_cex :
    (resultState (copy_date ⟨2016, 12, 23⟩ initState 2)).focused ≠
      initState.focused := by
  decide

/-- Claim C9 (amended): a successful `copy_date` call mutates the
clipboard, the keyboard focus (set to the pressed button) and the
`self.output` attribute (set to the written string), and nothing else:
in particular the two spacing flags are untouched. -/
theorem copy_date_effects (today : Date) (s : AppState) (o : Nat)
    (ho : o = 1 ∨ o = 2 ∨ o = 3) :
    ∃ out, copy_date today s o =
      .ok { clipboard := out, leading_check := s.leading_check,
            trailing_check := s.trailing_check, focused := some o,
            output := some out } := by
  rcases ho with rfl | rfl | rfl
  · exact ⟨applySpacing s.leading_check s.trailing_check
      (pyDropLast (formatDate (prevDay today) ++ "\n")),
      by simp [copy_date, finishCopy, str_nil_append]⟩
  · exact ⟨applySpacing s.leading_check s.trailing_check
      (pyDropLast (formatDate today ++ "\n")),
      by simp [copy_date, finishCopy, str_nil_append]⟩
  · exact ⟨applySpacing s.leading_check s.trailing_check
      (pyDropLast (formatDate (nextDay today) ++ "\n")),
      by simp [copy_date, finishCopy, str_nil_append]⟩

/-- Witness for `copy_date_effects` at option 2. -/
theorem copy_date_effects_witness :
    ((2 : Nat) = 1 ∨ (2 : Nat) = 2 ∨ (2 : Nat) = 3) ∧
    ∃ out, copy_date ⟨2016, 12, 23⟩ initState 2 =
      .ok { clipboard := out, leading_check := initState.leading_check,
            trailing_check := initState.trailing_check, focused := some 2,
            output := some out } :=
  ⟨by decide, copy_date_effects ⟨2016, 12, 23⟩ initState 2 (by decide)⟩

/-- A string differs from the empty string iff its character list is
nonempty. -/
theorem strData_ne_nil (s : String) (h : s ≠ "") : s.data ≠ [] := by
  obtain ⟨l⟩ := s
  intro hc
  apply h
  have hl : l = [] := hc
  subst hl
  rfl

/-- Claim C3, counterexample: from reference date 2019-02-28 with offset
+1 (option 3) the clipboard receives "01 Mar 2019" (zero-padded `%d`),
not "1 Mar 2019" as claimed. -/
theorem copy_date_leap_format_cex :
    resultClipboard (copy_date ⟨2019, 2, 28⟩ initState 3) = "01 Mar 2019" ∧
    "01 Mar 2019" ≠ "1 Mar 2019" := by
  decide

/-- Claim C3 (amended): for every valid option, `copy_date` formats the
date at offset {-1, 0, +1} whole days from the current date, computed
with standard calendar arithmetic (the day number changes by exactly the
offset, validity is preserved, so month, year and leap-year rollovers
are correct); from 2016-02-28 offset +1 yields "29 Feb 2016", and from
2019-02-28 offset +1 yields "01 Mar 2019". -/
theorem copy_date_calendar_arithmetic (today : Date) (s : AppState) (o : Nat)
    (hv : isValidDate today) (hne : today ≠ ⟨1, 1, 1⟩)
    (ho : o = 1 ∨ o = 2 ∨ o = 3) :
    isValidDate (targetDate o today) ∧
    (toRataDie (targetDate o today) : Int) = toRataDie today + dayOffset o ∧
    resultClipboard (copy_date today s o) =
      applySpacing s.leading_check s.trailing_check
        (formatDate (targetDate o today)) ∧
    resultClipboard (copy_date ⟨2016, 2, 28⟩ initState 3) = "29 Feb 2016" ∧
    resultClipboard (copy_date ⟨2019, 2, 28⟩ initState 3) = "01 Mar 2019" := by
  rcases ho with rfl | rfl | rfl
  · refine ⟨by simpa [targetDate] using isValidDate_prevDay today hv hne,
      ?_, ?_, by decide, by decide⟩
    · have h := toRataDie_prevDay today hv hne
      simp [targetDate, dayOffset]
      omega
    · simp [copy_date, finishCopy, resultClipboard, resultState, targetDate,
        pyDropLast_concat_newline, str_nil_append]
  · refine ⟨by simpa [targetDate] using hv, ?_, ?_, by decide, by decide⟩
    · simp [targetDate, dayOffset]
    · simp [copy_date, finishCopy, resultClipboard, resultState, targetDate,
        pyDropLast_concat_newline, str_nil_append]
  · refine ⟨by simpa [targetDate] using isValidDate_nextDay today hv,
      ?_, ?_, by decide, by decide⟩
    · have h := toRataDie_nextDay today hv
      simp only [targetDate, dayOffset]
      norm_num
      omega
    · simp [copy_date, finishCopy, resultClipboard, resultState, targetDate,
        pyDropLast_concat_newline, str_nil_append]

/-- Witness for `copy_date_calendar_arithmetic` at 2016-12-31, option 3. -/
theorem copy_date_calendar_arithmetic_witness :
    isValidDate ⟨2016, 12, 31⟩ ∧ Date.mk 2016 12 31 ≠ ⟨1, 1, 1⟩ ∧
    ((3 : Nat) = 1 ∨ (3 : Nat) = 2 ∨ (3 : Nat) = 3) ∧
    (isValidDate (targetDate 3 ⟨2016, 12, 31⟩) ∧
     (toRataDie (targetDate 3 ⟨2016, 12, 31⟩) : Int) =
       toRataDie ⟨2016, 12, 31⟩ + dayOffset 3 ∧
     resultClipboard (copy_date ⟨2016, 12, 31⟩ initState 3) =
       applySpacing initState.leading_check initState.trailing_check
         (formatDate (targetDate 3 ⟨2016, 12, 31⟩)) ∧
     resultClipboard (copy_date ⟨2016, 2, 28⟩ initState 3) = "29 Feb 2016" ∧
     resultClipboard (copy_date ⟨2019, 2, 28⟩ initState 3) = "01 Mar 2019") :=
  ⟨by decide, by decide, by decide,
    copy_date_calendar_arithmetic ⟨2016, 12, 31⟩ initState 3
      (by decide) (by decide) (by decide)⟩

/-- Claim C4: the spacing flags compose on the unpadded base string as
claimed: leading only prepends exactly one space (length +1, first
character a space, and no trailing space appears if the base has none);
both flags give one leading and one trailing space (length +2); both
off return the base string unchanged. -/
theorem applySpacing_composition (base : String) (hne : base ≠ "")
    (hlast : base.data.getLast? ≠ some ' ') :
    applySpacing true false base = " " ++ base ∧
    (applySpacing true false base).length = base.length + 1 ∧
    (applySpacing true false base).data.head? = some ' ' ∧
    (applySpacing true false base).data.getLast? ≠ some ' ' ∧
    applySpacing true true base = " " ++ base ++ " " ∧
    (applySpacing true true base).length = base.length + 2 ∧
    applySpacing false false base = base := by
  have hd := strData_ne_nil base hne
  refine ⟨by simp [applySpacing], ?_, ?_, ?_, ?_, ?_, by simp [applySpacing]⟩
  · rw [strLength_data, strLength_data, applySpacing_data]
    simp [List.length_append]
  · simp [applySpacing_data]
  · rw [applySpacing_data]
    simp only [cond_true, cond_false, List.append_nil]
    rw [List.getLast?_append_of_ne_nil _ hd]
    exact hlast
  · apply String.ext
    simp [applySpacing_data, strData_append]
  · rw [strLength_data, strLength_data, applySpacing_data]
    simp [List.length_append]

/-- Witness for `applySpacing_composition` at the base "23 Dec 2016". -/
theorem applySpacing_composition_witness :
    ("23 Dec 2016" ≠ "" ∧ "23 Dec 2016".data.getLast? ≠ some ' ') ∧
    (applySpacing true false "23 Dec 2016" = " " ++ "23 Dec 2016" ∧
     (applySpacing true false "23 Dec 2016").length = "23 Dec 2016".length + 1 ∧
     (applySpacing true false "23 Dec 2016").data.head? = some ' ' ∧
     (applySpacing true false "23 Dec 2016").data.getLast? ≠ some ' ' ∧
     applySpacing true true "23 Dec 2016" = " " ++ "23 Dec 2016" ++ " " ∧
     (applySpacing true true "23 Dec 2016").length = "23 Dec 2016".length + 2 ∧
     applySpacing false false "23 Dec 2016" = "23 Dec 2016") :=
  ⟨⟨by decide, by decide⟩,
    applySpacing_composition "23 Dec 2016" (by decide) (by decide)⟩

/-- Claim C5: a successful `copy_date` call fully replaces the clipboard
content: the resulting clipboard holds exactly the written string (the
one stored in `self.output`), and is independent of whatever the
clipboard held before — clear then append, no accumulation. -/
theorem copy_date_replaces_clipboard (today : Date) (s : AppState) (o : Nat)
    (ho : o = 1 ∨ o = 2 ∨ o = 3) :
    ∃ s', copy_date today s o = .ok s' ∧
      some s'.clipboard = s'.output ∧
      ∀ c : String,
        resultClipboard (copy_date today { s with clipboard := c } o) =
          s'.clipboard := by
  rcases ho with rfl | rfl | rfl <;>
    exact ⟨_, rfl, by simp [str_nil_append], fun c => rfl⟩

/-- Witness for `copy_date_replaces_clipboard` at option 2. -/
theorem copy_date_replaces_clipboard_witness :
    ((2 : Nat) = 1 ∨ (2 : Nat) = 2 ∨ (2 : Nat) = 3) ∧
    ∃ s', copy_date ⟨2016, 12, 23⟩ initState 2 = .ok s' ∧
      some s'.clipboard = s'.output ∧
      ∀ c : String,
        resultClipboard
            (copy_date ⟨2016, 12, 23⟩ { initState with clipboard := c } 2) =
          s'.clipboard :=
  ⟨by decide, copy_date_replaces_clipboard ⟨2016, 12, 23⟩ initState 2 (by decide)⟩

/-- The state reached by the sample call used in the idempotence
witness. -/
def witState : AppState :=
  { clipboard := "23 Dec 2016", leading_check := false,
    trailing_check := false, focused := some 2,
    output := some "23 Dec 2016" }

/-- Claim C6: two consecutive `copy_date` calls with the same valid
option, on the same current date (the current-date source returning the
same date) and with the spacing configuration unchanged in between,
leave identical clipboard content. -/
theorem copy_date_idempotent_same_day (today : Date) (s s1 s2 : AppState)
    (o : Nat) (ho : o = 1 ∨ o = 2 ∨ o = 3)
    (h1 : copy_date today s o = .ok s1)
    (h2 : copy_date today s1 o = .ok s2) :
    s2.clipboard = s1.clipboard := by
  have hf := copy_date_preserves_flags today s o
  rw [h1] at hf
  have hcong := copy_date_clipboard_congr today s s1 o hf.1 hf.2
  rw [h1, h2] at hcong
  simpa [resultClipboard, resultState] using hcong

/-- Witness for `copy_date_idempotent_same_day`: two option-2 calls on
2016-12-23 both leave "23 Dec 2016" on the clipboard. -/
theorem copy_date_idempotent_same_day_witness :
    ((2 : Nat) = 1 ∨ (2 : Nat) = 2 ∨ (2 : Nat) = 3) ∧
    copy_date ⟨2016, 12, 23⟩ initState 2 = .ok witState ∧
    copy_date ⟨2016, 12, 23⟩ witState 2 = .ok witState ∧
    witState.clipboard = witState.clipboard :=
  ⟨by decide, by decide, by decide,
    copy_date_idempotent_same_day ⟨2016, 12, 23⟩ initState witState witState 2
      (by decide) (by decide) (by decide)⟩

/-- Claim C8: both spacing flags start out false (`tk.BooleanVar()`
defaults), and `copy_date` reads the flags at the moment of the call:
toggling a flag between two calls changes the later call's output
accordingly (here shown from any state with both flags off). -/
theorem spacing_defaults_and_read_at_call (today : Date) (s : AppState)
    (o : Nat) (ho : o = 1 ∨ o = 2 ∨ o = 3)
    (hl : s.leading_check = false) (ht : s.trailing_check = false) :
    initState.leading_check = false ∧ initState.trailing_check = false ∧
    (step today (step today s .toggleTrailing) (.copy o)).clipboard =
      (step today s (.copy o)).clipboard ++ " " ∧
    (step today (step today s .toggleLeading) (.copy o)).clipboard =
      " " ++ (step today s (.copy o)).clipboard := by
  refine ⟨rfl, rfl, ?_, ?_⟩ <;>
    rcases ho with rfl | rfl | rfl <;>
      simp [step, copy_date, finishCopy, applySpacing, resultState, hl, ht,
        str_nil_append]

/-- Witness for `spacing_defaults_and_read_at_call` at option 2 from the
startup state. -/
theorem spacing_defaults_and_read_at_call_witness :
    (((2 : Nat) = 1 ∨ (2 : Nat) = 2 ∨ (2 : Nat) = 3) ∧
     initState.leading_check = false ∧ initState.trailing_check = false) ∧
    (initState.leading_check = false ∧ initState.trailing_check = false ∧
     (step ⟨2016, 12, 23⟩ (step ⟨2016, 12, 23⟩ initState .toggleTrailing)
         (.copy 2)).clipboard =
       (step ⟨2016, 12, 23⟩ initState (.copy 2)).clipboard ++ " " ∧
     (step ⟨2016, 12, 23⟩ (step ⟨2016, 12, 23⟩ initState .toggleLeading)
         (.copy 2)).clipboard =
       " " ++ (step ⟨2016, 12, 23⟩ initState (.copy 2)).clipboard) :=
  ⟨⟨by decide, rfl, rfl⟩,
    spacing_defaults_and_read_at_call ⟨2016, 12, 23⟩ initState 2
      (by decide) rfl rfl⟩

/-- Claim C10: for every valid option, the stripping step removes
exactly the final newline of the decoded `date` output (recovering the
bare formatted date), and the string placed on the clipboard never
contains (in particular never ends with) a newline. -/
theorem copy_date_strips_newline (today : Date) (s : AppState) (o : Nat)
    (ho : o = 1 ∨ o = 2 ∨ o = 3) :
    pyDropLast (formatDate (targetDate o today) ++ "\n") =
      formatDate (targetDate o today) ∧
    ∃ s', copy_date today s o = .ok s' ∧ '\n' ∉ s'.clipboard.data := by
  refine ⟨pyDropLast_concat_newline _, ?_⟩
  rcases ho with rfl | rfl | rfl
  · refine ⟨_, rfl, ?_⟩
    show '\n' ∉ ("" ++ applySpacing s.leading_check s.trailing_check
      (pyDropLast (formatDate (prevDay today) ++ "\n"))).data
    rw [str_nil_append, pyDropLast_concat_newline]
    exact applySpacing_no_newline _ _ _ (formatDate_no_newline _)
  · refine ⟨_, rfl, ?_⟩
    show '\n' ∉ ("" ++ applySpacing s.leading_check s.trailing_check
      (pyDropLast (formatDate today ++ "\n"))).data
    rw [str_nil_append, pyDropLast_concat_newline]
    exact applySpacing_no_newline _ _ _ (formatDate_no_newline _)
  · refine ⟨_, rfl, ?_⟩
    show '\n' ∉ ("" ++ applySpacing s.leading_check s.trailing_check
      (pyDropLast (formatDate (nextDay today) ++ "\n"))).data
    rw [str_nil_append, pyDropLast_concat_newline]
    exact applySpacing_no_newline _ _ _ (formatDate_no_newline _)

/-- Witness for `copy_date_strips_newline` at option 2. -/
theorem copy_date_strips_newline_witness :
    ((2 : Nat) = 1 ∨ (2 : Nat) = 2 ∨ (2 : Nat) = 3) ∧
    (pyDropLast (formatDate (targetDate 2 ⟨2016, 12, 23⟩) ++ "\n") =
      formatDate (targetDate 2 ⟨2016, 12, 23⟩) ∧
    ∃ s', copy_date ⟨2016, 12, 23⟩ initState 2 = .ok s' ∧
      '\n' ∉ s'.clipboard.data) :=
  ⟨by decide, copy_date_strips_newline ⟨2016, 12, 23⟩ initState 2 (by decide)⟩
